import Mathlib

/-!
Verification of the Web-Scrapping pipeline (justdial listing scraper +
Google-business-profile enrichment).

The Python records are dictionaries mapping string keys to optional string
values; we embed them as association lists `List (String × Option String)`
with Python-dict update semantics (replace the first binding of a key,
append when absent).  Python truthiness of an `Optional[str]` value
(`None` and `""` are falsy) is the function `pyTruthy`.  Python string
primitives (`strip`, `lower`, `len`, `in`, `startswith`) are modelled
over the character list of the string, matching Python's view of a string
as a character sequence.  External collaborators (HTTP fetches, the HTML
soup, the browser session) are passed in as oracle parameters, exactly at
the call boundaries where the source uses them.
-/

namespace WebScrap

/-- Value of a record field: a Python `Optional[str]`. -/
abbrev Val := Option String

/-- Record: a Python dict from string keys to optional strings, embedded
as an association list in insertion order. -/
abbrev Dict := List (String × Val)

/-- Whitespace characters stripped by Python `str.strip()` (ASCII set). -/
def isPyWs (c : Char) : Bool :=
  c = ' ' ∨ c = '\t' ∨ c = '\n' ∨ c = '\r' ∨ c = '\x0b' ∨ c = '\x0c'

/-- Python `str.strip()`: drop leading and trailing whitespace. -/
def pyStrip (s : String) : String :=
  String.mk (((s.data.dropWhile isPyWs).reverse.dropWhile isPyWs).reverse)

/-- Python `str.lower()` (ASCII letters). -/
def pyLower (s : String) : String :=
  String.mk (s.data.map Char.toLower)

/-- Python `len` of a string: number of characters. -/
def pyLen (s : String) : Nat :=
  s.data.length

/-- Python `str.startswith`. -/
def pyStartsWith (s p : String) : Bool :=
  p.data.isPrefixOf s.data

/-- Truthiness of a Python `Optional[str]`: `None` and `""` are falsy. -/
def pyTruthy : Val → Bool
  | none => false
  | some s => s != ""

/-- Python `str(value or "")` for an optional string. -/
def pyStrOr : Val → String
  | none => ""
  | some s => s

/-- Python `f"{value}"` for an optional string (`None` renders as "None"). -/
def pyStr : Val → String
  | none => "None"
  | some s => s

/-- Python `d.get(key)`: value of the first binding of `key`, `None` when
absent. -/
def dictGet (d : Dict) (k : String) : Val :=
  match d with
  | [] => none
  | kv :: rest => if kv.1 = k then kv.2 else dictGet rest k

/-- Python `d[key] = v`: replace the first binding of `key`, append the
binding when the key is absent. -/
def dictSet (d : Dict) (k : String) (v : Val) : Dict :=
  match d with
  | [] => [(k, v)]
  | kv :: rest => if kv.1 = k then (k, v) :: rest else kv :: dictSet rest k v

/-- Keys of a record, in insertion order. -/
def dictKeys (d : Dict) : List String :=
  d.map Prod.fst

/-- Merge of `main.py`: for every key/value of the profile dict `gmb`,
skip keys starting with an underscore, and overwrite `data[key]` exactly
when the value is truthy (non-`None`, non-empty). -/
def _merge_gmb (data : Dict) : Dict → Dict
  | [] => data
  | (k, v) :: rest =>
      _merge_gmb
        (if pyStartsWith k "_" then data
         else if pyTruthy v then dictSet data k v else data) rest

/-- Address-cell normalization of `main.py`: strip, drop empty cells,
drop the conversational placeholders, drop cells shorter than 5
characters. -/
def _normalize_address_cell (value : Val) : String :=
  if pyStrip (pyStrOr value) = "" then ""
  else if pyLower (pyStrip (pyStrOr value)) = "yes" ∨
          pyLower (pyStrip (pyStrOr value)) = "no" ∨
          pyLower (pyStrip (pyStrOr value)) = "yes in gmb" then ""
  else if pyLen (pyStrip (pyStrOr value)) < 5 then ""
  else pyStrip (pyStrOr value)

/-- City-cell normalization of `main.py`: strip, drop empty cells and the
conversational placeholders (no length rule). -/
def _normalize_city_cell (value : Val) : String :=
  if pyStrip (pyStrOr value) = "" then ""
  else if pyLower (pyStrip (pyStrOr value)) = "yes" ∨
          pyLower (pyStrip (pyStrOr value)) = "no" ∨
          pyLower (pyStrip (pyStrOr value)) = "yes in gmb" then ""
  else pyStrip (pyStrOr value)

theorem dictGet_dictSet_self (d : Dict) (k : String) (v : Val) :
    dictGet (dictSet d k v) k = v := by
  induction d with
  | nil => simp [dictSet, dictGet]
  | cons kv rest ih =>
      by_cases h : kv.1 = k
      · simp [dictSet, dictGet, h]
      · simp [dictSet, dictGet, h, ih]

theorem dictGet_dictSet_ne (d : Dict) {k k' : String} (v : Val) (h : k ≠ k') :
    dictGet (dictSet d k' v) k = dictGet d k := by
  have h' : k' ≠ k := Ne.symm h
  induction d with
  | nil => simp [dictSet, dictGet, h']
  | cons kv rest ih =>
      by_cases hk : kv.1 = k'
      · have hne : kv.1 ≠ k := hk ▸ h'
        simp [dictSet, dictGet, hk, h', hne]
      · by_cases hk2 : kv.1 = k
        · simp [dictSet, dictGet, hk, hk2, h]
        · simp [dictSet, dictGet, hk, hk2, ih]

theorem dictGet_eq_none_of_not_mem_keys {d : Dict} {k : String}
    (h : k ∉ dictKeys d) : dictGet d k = none := by
  induction d with
  | nil => rfl
  | cons kv rest ih =>
      rw [dictKeys, List.map_cons, List.mem_cons, not_or] at h
      rw [dictGet, if_neg (fun hc => h.1 hc.symm)]
      exact ih h.2

theorem merge_gmb_preserves_nontruthy (gmb : Dict) :
    ∀ (data : Dict) (k : String), (dictKeys gmb).Nodup →
      pyTruthy (dictGet gmb k) = false →
      dictGet (_merge_gmb data gmb) k = dictGet data k := by
  induction gmb with
  | nil => intro data k _ _; rfl
  | cons kv rest ih =>
      intro data k hnd hfalse
      obtain ⟨k₀, v₀⟩ := kv
      rw [dictKeys, List.map_cons, List.nodup_cons] at hnd
      by_cases hk : k₀ = k
      · subst hk
        have hv₀ : pyTruthy v₀ = false := by
          simpa [dictGet] using hfalse
        have hrest : pyTruthy (dictGet rest k₀) = false := by
          rw [dictGet_eq_none_of_not_mem_keys hnd.1]
          rfl
        have hstep :
            (if pyStartsWith k₀ "_" then data
             else if pyTruthy v₀ then dictSet data k₀ v₀ else data) = data := by
          simp [hv₀]
        rw [_merge_gmb, hstep, ih data k₀ hnd.2 hrest]
      · have hrest : pyTruthy (dictGet rest k) = false := by
          simpa [dictGet, hk] using hfalse
        rw [_merge_gmb]
        rw [ih _ k hnd.2 hrest]
        by_cases hu : pyStartsWith k₀ "_"
        · simp [hu]
        · by_cases hv : pyTruthy v₀
          · simp [hu, hv, dictGet_dictSet_ne data v₀ (fun hh => hk hh.symm)]
          · simp [hu, hv]

theorem merge_gmb_all_empty (gmb : Dict) :
    ∀ data : Dict, (∀ kv ∈ gmb, pyTruthy kv.2 = false) →
      _merge_gmb data gmb = data := by
  induction gmb with
  | nil => intro data _; rfl
  | cons kv rest ih =>
      intro data hall
      obtain ⟨k₀, v₀⟩ := kv
      have hv₀ : pyTruthy v₀ = false := hall (k₀, v₀) (by simp)
      have hstep :
          (if pyStartsWith k₀ "_" then data
           else if pyTruthy v₀ then dictSet data k₀ v₀ else data) = data := by
        simp [hv₀]
      rw [_merge_gmb, hstep]
      exact ih data (fun kv h => hall kv (by simp [h]))

/-- C1: the merge `_merge_gmb` overwrites a field of the listing only when
the profile value for that field is non-empty: a populated listing field
paired with an empty profile field keeps its original value, and an
all-empty profile leaves the listing dict entirely unchanged. -/
theorem claim_C1 (data gmb : Dict) (k : String) :
    ((dictKeys gmb).Nodup → pyTruthy (dictGet data k) = true →
      pyTruthy (dictGet gmb k) = false →
      dictGet (_merge_gmb data gmb) k = dictGet data k)
    ∧ ((∀ kv ∈ gmb, pyTruthy kv.2 = false) → _merge_gmb data gmb = data) := by
  constructor
  · intro hnd _ hfalse
    exact merge_gmb_preserves_nontruthy gmb data k hnd hfalse
  · intro hall
    exact merge_gmb_all_empty gmb data hall

/-- Witness for C1 at a concrete listing and profile. -/
theorem claim_C1_witness :
    dictGet
        (_merge_gmb [("full_address", some "12 MG Road")]
          [("full_address", some ""), ("_blocked", none)]) "full_address"
      = dictGet [("full_address", some "12 MG Road")] "full_address"
    ∧ _merge_gmb [("full_address", some "12 MG Road")]
        [("full_address", some ""), ("working_hours", none)]
      = [("full_address", some "12 MG Road")] :=
  ⟨(claim_C1 [("full_address", some "12 MG Road")]
      [("full_address", some ""), ("_blocked", none)] "full_address").1
      (by decide) (by decide) (by decide),
   (claim_C1 [("full_address", some "12 MG Road")]
      [("full_address", some ""), ("working_hours", none)] "full_address").2
      (by decide)⟩

/-- C10: a stripped address cell that is non-empty, is not one of the
conversational placeholders, and is shorter than 5 characters is
normalized to the empty string. -/
theorem claim_C10 (value : Val) :
    pyStrip (pyStrOr value) ≠ "" →
    ¬ (pyLower (pyStrip (pyStrOr value)) = "yes" ∨
       pyLower (pyStrip (pyStrOr value)) = "no" ∨
       pyLower (pyStrip (pyStrOr value)) = "yes in gmb") →
    pyLen (pyStrip (pyStrOr value)) < 5 →
    _normalize_address_cell value = "" := by
  intro h1 h2 h3
  simp only [_normalize_address_cell, if_neg h1, if_neg h2, if_pos h3]

/-- Witness for C10: the short address cell " abc " is discarded. -/
theorem claim_C10_witness : _normalize_address_cell (some " abc ") = "" :=
  claim_C10 (some " abc ") (by decide) (by decide) (by decide)

/-- Occurrence of `pat` at character position `i` of `s`. -/
def matchesAt (s pat : List Char) (i : Nat) : Bool :=
  pat.isPrefixOf (s.drop i)

/-- Python `pat in s` for strings: some position carries an occurrence. -/
def containsSub (s pat : List Char) : Bool :=
  (List.range (s.length + 1)).any (fun i => matchesAt s pat i)

/-- Number of character positions of `s` at which `pat` occurs. -/
def subOccCount (s pat : List Char) : Nat :=
  (List.range (s.length + 1)).countP (fun i => matchesAt s pat i)

/-- Python `pat in s` on the string type. -/
def strContains (s pat : String) : Bool :=
  containsSub s.data pat.data

/-- Embed-link construction of `utils.py`: empty/absent URL gives `None`;
a URL already containing `output=embed` is returned unchanged; otherwise
`output=embed` is appended with `&` when the URL has a query string and
with `?` otherwise. -/
def build_embed_link_from_place_url (place_url : Val) : Val :=
  match place_url with
  | none => none
  | some u =>
      if u = "" then none
      else if strContains u "output=embed" then some u
      else if strContains u "?" then some (u ++ "&output=embed")
      else some (u ++ "?output=embed")

theorem matchesAt_false_of_not_contains {s pat : List Char} (hpat : pat ≠ [])
    (hno : containsSub s pat = false) : ∀ i, matchesAt s pat i = false := by
  intro i
  by_cases hi : i < s.length + 1
  · have := List.any_eq_false.mp hno i (List.mem_range.mpr hi)
    simpa using this
  · have hdrop : s.drop i = [] := List.drop_eq_nil_iff.mpr (by omega)
    rw [matchesAt, hdrop]
    rw [Bool.eq_false_iff]
    intro hc
    exact hpat (List.prefix_nil.mp (List.isPrefixOf_iff_prefix.mp hc))

theorem matchesAt_append_left {s t pat : List Char} {i : Nat}
    (h : i + pat.length ≤ s.length) :
    matchesAt (s ++ t) pat i = matchesAt s pat i := by
  have hi : i ≤ s.length := le_trans (Nat.le_add_right _ _) h
  rw [Bool.eq_iff_iff]
  simp only [matchesAt, List.isPrefixOf_iff_prefix, List.prefix_iff_eq_take]
  rw [List.drop_append_of_le_length hi,
    List.take_append_of_le_length (by rw [List.length_drop]; omega)]

theorem mem_of_prefix_append_cons {p a t : List Char} {j : Char}
    (hp : p <+: a ++ j :: t) (hl : a.length < p.length) : j ∈ p := by
  have he := List.prefix_iff_eq_take.mp hp
  rw [List.take_append_eq_append_take, List.take_of_length_le (by omega)] at he
  have h2 : p.length - a.length = (p.length - a.length - 1) + 1 := by omega
  rw [h2, List.take_succ_cons] at he
  rw [he]
  exact List.mem_append_right _ (List.mem_cons_self _ _)

theorem matchesAt_marker_high {s t pat : List Char} {j : Char} {i : Nat}
    (hpat : pat ≠ []) (hhigh : s.length + 1 ≤ i)
    (hm : matchesAt (s ++ j :: t) pat i = true) (ht : t.length ≤ pat.length) :
    i = s.length + 1 := by
  have hpre := List.isPrefixOf_iff_prefix.mp hm
  have hlen := hpre.length_le
  rw [List.length_drop, List.length_append, List.length_cons] at hlen
  have hplen : 0 < pat.length := List.length_pos.mpr hpat
  omega

theorem matchesAt_marker_exact {s pat : List Char} {j : Char} :
    matchesAt (s ++ j :: pat) pat (s.length + 1) = true := by
  rw [matchesAt]
  have hdrop : (s ++ j :: pat).drop (s.length + 1) = pat := by
    rw [show s.length + 1 = s.length + 1 from rfl]
    rw [List.drop_append (i := 1)]
    rfl
  rw [hdrop]
  exact List.isPrefixOf_iff_prefix.mpr List.prefix_rfl

theorem subOccCount_append_marker {s pat : List Char} {j : Char}
    (hpat : pat ≠ []) (hj : j ∉ pat) (hno : containsSub s pat = false) :
    subOccCount (s ++ j :: pat) pat = 1 := by
  have hchar : ∀ i, matchesAt (s ++ j :: pat) pat i = true ↔ i = s.length + 1 := by
    intro i
    constructor
    · intro hm
      by_cases hhigh : s.length + 1 ≤ i
      · exact matchesAt_marker_high hpat hhigh hm le_rfl
      · have hi : i ≤ s.length := by omega
        by_cases hfit : i + pat.length ≤ s.length
        · rw [matchesAt_append_left hfit] at hm
          rw [matchesAt_false_of_not_contains hpat hno i] at hm
          exact absurd hm (by simp)
        · exfalso
          apply hj
          have hpre := List.isPrefixOf_iff_prefix.mp hm
          rw [List.drop_append_of_le_length hi] at hpre
          exact mem_of_prefix_append_cons hpre
            (by rw [List.length_drop]; omega)
    · intro hi
      subst hi
      exact matchesAt_marker_exact
  rw [subOccCount]
  rw [List.countP_congr (q := fun i => i == s.length + 1)
    (fun x _ => by simpa using hchar x)]
  rw [← List.count_eq_countP]
  exact List.count_eq_one_of_mem (List.nodup_range _)
    (List.mem_range.mpr (by
      rw [List.length_append, List.length_cons]
      omega))

/-- Counterexample to C9 as stated: the non-empty place URL
"a?output=embed&output=embed" already contains `output=embed`, so it is
returned unchanged by `build_embed_link_from_place_url`, yet the result
contains `output=embed` twice, not exactly once. -/
theorem claim_C9_counterexample :
    ("a?output=embed&output=embed" : String) ≠ ""
    ∧ build_embed_link_from_place_url (some "a?output=embed&output=embed")
        = some "a?output=embed&output=embed"
    ∧ subOccCount ("a?output=embed&output=embed").data ("output=embed").data ≠ 1 := by
  refine ⟨by decide, ?_, by decide⟩
  have h : strContains "a?output=embed&output=embed" "output=embed" = true := by decide
  simp [build_embed_link_from_place_url, h]

/-- C9 (amended): for every non-empty place URL that does not already
contain `output=embed`, the construction appends it and the result
contains `output=embed` exactly once; for every place URL that already
contains `output=embed`, the function returns the input unchanged. -/
theorem claim_C9 (u : String) :
    (u ≠ "" → strContains u "output=embed" = false →
      ∃ v, build_embed_link_from_place_url (some u) = some v ∧
        subOccCount v.data ("output=embed").data = 1)
    ∧ (strContains u "output=embed" = true →
        build_embed_link_from_place_url (some u) = some u) := by
  constructor
  · intro hne hno
    by_cases hq : strContains u "?" = true
    · refine ⟨u ++ "&output=embed", ?_, ?_⟩
      · simp [build_embed_link_from_place_url, hne, hno, hq]
      · rw [String.data_append]
        have hd : ("&output=embed" : String).data
            = '&' :: ("output=embed" : String).data := by decide
        rw [hd]
        exact subOccCount_append_marker (by decide) (by decide) hno
    · refine ⟨u ++ "?output=embed", ?_, ?_⟩
      · simp [build_embed_link_from_place_url, hne, hno, hq]
      · rw [String.data_append]
        have hd : ("?output=embed" : String).data
            = '?' :: ("output=embed" : String).data := by decide
        rw [hd]
        exact subOccCount_append_marker (by decide) (by decide) hno
  · intro hyes
    have hne : u ≠ "" := by
      intro he
      subst he
      exact absurd hyes (by decide)
    simp [build_embed_link_from_place_url, hne, hyes]

/-- Witness for C9 at the spec's example URL and at a URL already
containing the embed marker. -/
theorem claim_C9_witness :
    (∃ v, build_embed_link_from_place_url
        (some "https://maps.google.com/place/X?hl=en") = some v ∧
      subOccCount v.data ("output=embed").data = 1)
    ∧ build_embed_link_from_place_url (some "https://maps.google.com/place?output=embed")
        = some "https://maps.google.com/place?output=embed" :=
  ⟨(claim_C9 "https://maps.google.com/place/X?hl=en").1 (by decide) (by decide),
   (claim_C9 "https://maps.google.com/place?output=embed").2 (by decide)⟩

/-- Blocked-page detection of `utils.py`: case-insensitive markers
"unusual traffic", "captcha", "verify". -/
def looks_like_blocked (text : Val) : Bool :=
  match text with
  | none => false
  | some t =>
      strContains (pyLower t) "unusual traffic" || strContains (pyLower t) "captcha"
        || strContains (pyLower t) "verify"

/-- Structured result of `_parse_details_page` for one profile URL, as
resolved by the external fetch/parse collaborators. -/
structure Details where
  hours : Val
  landmark : Val
  testimonials : Val
  staff : Val
  collection_charges : Val
  collection_radius : Val
  average_report_time : Val
  images : List String

/-- Details dict of a card whose profile URL is missing: every field of
the initial `data` dict of `_parse_details_page` stays unset. -/
def emptyDetails : Details :=
  ⟨none, none, none, none, none, none, none, []⟩

/-- Extraction outcomes for one listing card: the values the per-card
selector chains (`_extract_profile_url`, `_extract_name`,
`_extract_address`, `_extract_rating_reviews`) resolve to, plus the
details-page data reachable from its profile URL. -/
structure Card where
  profileUrl : Val
  name : Val
  address : Val
  rating : Val
  details : Details

/-- One fetched directory page: the raw html text and the selector oracle
of its parsed soup. -/
structure PageData where
  html : String
  soup : String → List Card

/-- Card selectors tried, in order, by `_extract_listing_cards`. -/
def jdCardSelectors : List String :=
  ["div.resultbox", "div.jcn", "li.cntanr", "div.store-details"]

/-- First non-empty selector result, else empty. -/
def firstNonEmptySel (soup : String → List Card) : List String → List Card
  | [] => []
  | sel :: rest =>
      if (soup sel).isEmpty then firstNonEmptySel soup rest else soup sel

/-- Listing-card extraction of `justdial_scraper.py`: try the fixed
selector list in order, return the first non-empty match set, else []. -/
def _extract_listing_cards (soup : String → List Card) : List Card :=
  firstNonEmptySel soup jdCardSelectors

/-- Category inference of `justdial_scraper.py`: marker substrings checked
on the lowered search keyword first, then on the lowered listing name. -/
def _infer_center_type (keyword : String) (name : Val) : Val :=
  if strContains (pyLower keyword) "diagnostic" then some "Diagnostic Center"
  else if strContains (pyLower keyword) "scan" then some "Scan Center"
  else if strContains (pyLower keyword) "lab" || strContains (pyLower keyword) "laboratory" then
    some "Lab"
  else if strContains (pyLower keyword) "hospital" then some "Hospital"
  else if pyTruthy name then
    if strContains (pyLower (pyStrOr name)) "diagnostic" then some "Diagnostic Center"
    else if strContains (pyLower (pyStrOr name)) "scan" then some "Scan Center"
    else if strContains (pyLower (pyStrOr name)) "lab"
        || strContains (pyLower (pyStrOr name)) "laboratory" then some "Lab"
    else if strContains (pyLower (pyStrOr name)) "hospital" then some "Hospital"
    else none
  else none

/-- Python `sep.join(items)`. -/
def pyJoin (sep : String) : List String → String
  | [] => ""
  | [x] => x
  | x :: rest => x ++ sep ++ pyJoin sep rest

/-- Directory search URL for a page number. -/
def jdUrl (city keyword : String) (page : Nat) : String :=
  "https://www.justdial.com/" ++ city ++ "/" ++ keyword ++ "/page-" ++ toString page

/-- Listing record built for one card (lines 181-198 of
`justdial_scraper.py`).  When the card has no truthy profile URL the
details page is never fetched, so every details field stays unset. -/
def jdRecord (keyword url : String) (c : Card) : Dict :=
  let details := if pyTruthy c.profileUrl then c.details else emptyDetails
  [("center_name", c.name),
   ("center_type", _infer_center_type keyword c.name),
   ("full_address", c.address),
   ("average_report_time", details.average_report_time),
   ("collection_charges", details.collection_charges),
   ("collection_radius", details.collection_radius),
   ("working_hours", details.hours),
   ("image_urls", some (pyJoin ", " details.images)),
   ("google_business_profile_link", none),
   ("google_maps_embed_link", none),
   ("local_landmark", details.landmark),
   ("reviews_ratings", c.rating),
   ("testimonials", details.testimonials),
   ("photo_gallery", some (pyJoin ", " details.images)),
   ("staff_doctors", details.staff),
   ("source_url", if pyTruthy c.profileUrl then c.profileUrl else some url)]

/-- Sentinel returned when the directory page is a block page. -/
def jdBlockedSentinel : Dict :=
  [("_blocked", some "justdial_blocked_or_captcha")]

/-- Page loop of `scrape_justdial`: `remaining` pages left, starting at
`page`.  A failed fetch or an empty response skips to the next page; a
blocked page aborts the call with the sentinel; an empty card list stops
paging; otherwise the page's records are appended. -/
def jdLoop (env : String → Option PageData) (city keyword : String) :
    Nat → Nat → List Dict → List Dict
  | _, 0, acc => acc
  | page, remaining + 1, acc =>
      match env (jdUrl city keyword page) with
      | none => jdLoop env city keyword (page + 1) remaining acc
      | some pd =>
          if pd.html = "" then jdLoop env city keyword (page + 1) remaining acc
          else if looks_like_blocked (some pd.html) then [jdBlockedSentinel]
          else
            if (_extract_listing_cards pd.soup).isEmpty then acc
            else jdLoop env city keyword (page + 1) remaining
              (acc ++ (_extract_listing_cards pd.soup).map
                (jdRecord keyword (jdUrl city keyword page)))

/-- Bulk directory scrape of `justdial_scraper.py`: pages 1..max_pages. -/
def scrape_justdial (env : String → Option PageData) (city keyword : String)
    (max_pages : Nat) : List Dict :=
  jdLoop env city keyword 1 max_pages []

/-- Page `q` does not stop the page loop: the fetch failed or was empty,
or the page is not blocked and has a non-empty card list. -/
def pageContinuesB (env : String → Option PageData) (city keyword : String)
    (q : Nat) : Bool :=
  match env (jdUrl city keyword q) with
  | none => true
  | some pd =>
      pd.html == ""
        || (!looks_like_blocked (some pd.html)
            && !(_extract_listing_cards pd.soup).isEmpty)

/-- Page `q` yields nothing: unfetched/empty response, or fetched,
unblocked, and every card selector matches nothing. -/
def pageNoCardsB (env : String → Option PageData) (city keyword : String)
    (q : Nat) : Bool :=
  match env (jdUrl city keyword q) with
  | none => true
  | some pd =>
      pd.html == ""
        || (!looks_like_blocked (some pd.html)
            && jdCardSelectors.all (fun sel => (pd.soup sel).isEmpty))

/-- Records contributed by page `q` when the loop passes through it. -/
def pageRecords (env : String → Option PageData) (city keyword : String)
    (q : Nat) : List Dict :=
  match env (jdUrl city keyword q) with
  | none => []
  | some pd =>
      if pd.html = "" then []
      else (_extract_listing_cards pd.soup).map
        (jdRecord keyword (jdUrl city keyword q))

/-- Records collected from `count` consecutive pages starting at `page`. -/
def recordsUpTo (env : String → Option PageData) (city keyword : String) :
    Nat → Nat → List Dict
  | _, 0 => []
  | page, count + 1 =>
      pageRecords env city keyword page
        ++ recordsUpTo env city keyword (page + 1) count

theorem firstNonEmptySel_nil (soup : String → List Card) :
    ∀ sels : List String, (∀ sel ∈ sels, (soup sel).isEmpty = true) →
      firstNonEmptySel soup sels = [] := by
  intro sels h
  induction sels with
  | nil => rfl
  | cons sel rest ih =>
      rw [firstNonEmptySel, if_pos (h sel (by simp))]
      exact ih (fun s hs => h s (by simp [hs]))

theorem jdLoop_blocked (env : String → Option PageData) (city keyword : String) :
    ∀ (r page : Nat) (acc : List Dict) (p : Nat) (pd : PageData),
      page ≤ p → p < page + r →
      (∀ q, page ≤ q → q < p → pageContinuesB env city keyword q = true) →
      env (jdUrl city keyword p) = some pd → pd.html ≠ "" →
      looks_like_blocked (some pd.html) = true →
      jdLoop env city keyword page r acc = [jdBlockedSentinel] := by
  intro r
  induction r with
  | zero => intro page acc p pd h1 h2 _ _ _ _; omega
  | succ r ih =>
      intro page acc p pd h1 h2 hcont henvp hne hblk
      by_cases hpp : p = page
      · subst hpp
        rw [jdLoop, henvp]
        simp only [if_neg hne, hblk, if_true]
      · have hgt : page + 1 ≤ p := by omega
        have hc := hcont page le_rfl (by omega)
        rw [pageContinuesB] at hc
        cases henv : env (jdUrl city keyword page) with
        | none =>
            rw [jdLoop, henv]
            exact ih (page + 1) acc p pd hgt (by omega)
              (fun q hq1 hq2 => hcont q (by omega) hq2) henvp hne hblk
        | some pd' =>
            rw [henv] at hc
            dsimp only at hc
            rw [jdLoop, henv]
            dsimp only
            by_cases hh : pd'.html = ""
            · rw [if_pos hh]
              exact ih (page + 1) acc p pd hgt (by omega)
                (fun q hq1 hq2 => hcont q (by omega) hq2) henvp hne hblk
            · have hh' : (pd'.html == "") = false := by
                simp [hh]
              rw [hh'] at hc
              simp only [Bool.false_or, Bool.and_eq_true, Bool.not_eq_true',
                List.isEmpty_eq_false] at hc
              rw [if_neg hh, hc.1]
              simp only [Bool.false_eq_true, if_false]
              rw [if_neg (by simpa using hc.2)]
              exact ih (page + 1) _ p pd hgt (by omega)
                (fun q hq1 hq2 => hcont q (by omega) hq2) henvp hne hblk

theorem jdLoop_stops_on_empty (env : String → Option PageData)
    (city keyword : String) :
    ∀ (r page : Nat) (acc : List Dict) (p : Nat) (pd : PageData),
      page ≤ p → p < page + r →
      (∀ q, page ≤ q → q < p → pageContinuesB env city keyword q = true) →
      env (jdUrl city keyword p) = some pd → pd.html ≠ "" →
      looks_like_blocked (some pd.html) = false →
      _extract_listing_cards pd.soup = [] →
      jdLoop env city keyword page r acc
        = acc ++ recordsUpTo env city keyword page (p - page) := by
  intro r
  induction r with
  | zero => intro page acc p pd h1 h2 _ _ _ _ _; omega
  | succ r ih =>
      intro page acc p pd h1 h2 hcont henvp hne hblk hcards
      by_cases hpp : p = page
      · subst hpp
        rw [jdLoop, henvp]
        dsimp only
        rw [if_neg hne, hblk]
        simp only [Bool.false_eq_true, if_false]
        rw [if_pos (by simp [hcards]), Nat.sub_self]
        simp [recordsUpTo]
      · have hgt : page + 1 ≤ p := by omega
        have hstep : p - page = (p - (page + 1)) + 1 := by omega
        have hc := hcont page le_rfl (by omega)
        rw [pageContinuesB] at hc
        cases henv : env (jdUrl city keyword page) with
        | none =>
            rw [jdLoop, henv]
            rw [ih (page + 1) acc p pd hgt (by omega)
              (fun q hq1 hq2 => hcont q (by omega) hq2) henvp hne hblk hcards]
            rw [hstep, recordsUpTo]
            have hpr : pageRecords env city keyword page = [] := by
              rw [pageRecords, henv]
            rw [hpr, List.nil_append]
        | some pd' =>
            rw [henv] at hc
            dsimp only at hc
            rw [jdLoop, henv]
            dsimp only
            by_cases hh : pd'.html = ""
            · rw [if_pos hh]
              rw [ih (page + 1) acc p pd hgt (by omega)
                (fun q hq1 hq2 => hcont q (by omega) hq2) henvp hne hblk hcards]
              rw [hstep, recordsUpTo]
              have hpr : pageRecords env city keyword page = [] := by
                rw [pageRecords, henv]
                dsimp only
                rw [if_pos hh]
              rw [hpr, List.nil_append]
            · have hh' : (pd'.html == "") = false := by
                simp [hh]
              rw [hh'] at hc
              simp only [Bool.false_or, Bool.and_eq_true, Bool.not_eq_true',
                List.isEmpty_eq_false] at hc
              rw [if_neg hh, hc.1]
              simp only [Bool.false_eq_true, if_false]
              rw [if_neg (by simpa using hc.2)]
              rw [ih (page + 1) _ p pd hgt (by omega)
                (fun q hq1 hq2 => hcont q (by omega) hq2) henvp hne hblk hcards]
              have hpr : pageRecords env city keyword page
                  = (_extract_listing_cards pd'.soup).map
                      (jdRecord keyword (jdUrl city keyword page)) := by
                rw [pageRecords, henv]
                dsimp only
                rw [if_neg hh]
              rw [hstep, recordsUpTo, hpr, List.append_assoc]

theorem jdLoop_no_cards (env : String → Option PageData)
    (city keyword : String) :
    ∀ (r page : Nat) (acc : List Dict),
      (∀ q, page ≤ q → q < page + r → pageNoCardsB env city keyword q = true) →
      jdLoop env city keyword page r acc = acc := by
  intro r
  induction r with
  | zero => intro page acc _; rfl
  | succ r ih =>
      intro page acc hall
      have h := hall page le_rfl (by omega)
      rw [pageNoCardsB] at h
      cases henv : env (jdUrl city keyword page) with
      | none =>
          rw [jdLoop, henv]
          exact ih (page + 1) acc (fun q hq1 hq2 => hall q (by omega) (by omega))
      | some pd =>
          rw [henv] at h
          dsimp only at h
          rw [jdLoop, henv]
          dsimp only
          by_cases hh : pd.html = ""
          · rw [if_pos hh]
            exact ih (page + 1) acc (fun q hq1 hq2 => hall q (by omega) (by omega))
          · have hh' : (pd.html == "") = false := by
              simp [hh]
            rw [hh'] at h
            simp only [Bool.false_or, Bool.and_eq_true, Bool.not_eq_true',
              List.all_eq_true] at h
            rw [if_neg hh, h.1]
            simp only [Bool.false_eq_true, if_false]
            rw [if_pos]
            rw [List.isEmpty_eq_true, _extract_listing_cards]
            exact firstNonEmptySel_nil pd.soup jdCardSelectors
              (fun sel hs => h.2 sel hs)

/-- C7: the paging behaviour of `scrape_justdial`.  First conjunct: if
blocked-page detection fires on a fetched page (all earlier pages having
let the loop continue), the whole call returns exactly the one-element
blocked sentinel list.  Second conjunct: if a fetched, unblocked page
yields an empty card list, paging stops and the call returns exactly the
records collected from the earlier pages.  Third conjunct: if on every
page the fetch fails/is empty or every card selector matches nothing on
an unblocked page, the call returns the empty list (and, being a total
function, raises no exception). -/
theorem claim_C7 (env : String → Option PageData) (city keyword : String)
    (max_pages : Nat) :
    (∀ p pd, 1 ≤ p → p ≤ max_pages →
      (∀ q, 1 ≤ q → q < p → pageContinuesB env city keyword q = true) →
      env (jdUrl city keyword p) = some pd → pd.html ≠ "" →
      looks_like_blocked (some pd.html) = true →
      scrape_justdial env city keyword max_pages = [jdBlockedSentinel])
    ∧ (∀ p pd, 1 ≤ p → p ≤ max_pages →
      (∀ q, 1 ≤ q → q < p → pageContinuesB env city keyword q = true) →
      env (jdUrl city keyword p) = some pd → pd.html ≠ "" →
      looks_like_blocked (some pd.html) = false →
      _extract_listing_cards pd.soup = [] →
      scrape_justdial env city keyword max_pages
        = recordsUpTo env city keyword 1 (p - 1))
    ∧ ((∀ q, 1 ≤ q → q ≤ max_pages → pageNoCardsB env city keyword q = true) →
      scrape_justdial env city keyword max_pages = []) := by
  refine ⟨?_, ?_, ?_⟩
  · intro p pd h1 h2 hcont henv hne hblk
    exact jdLoop_blocked env city keyword max_pages 1 [] p pd h1 (by omega)
      hcont henv hne hblk
  · intro p pd h1 h2 hcont henv hne hblk hcards
    have := jdLoop_stops_on_empty env city keyword max_pages 1 [] p pd h1
      (by omega) hcont henv hne hblk hcards
    rw [scrape_justdial, this, List.nil_append]
  · intro hall
    exact jdLoop_no_cards env city keyword max_pages 1 []
      (fun q hq1 hq2 => hall q hq1 (by omega))

/-- Concrete card for the C7 witness environment. -/
def cardW : Card :=
  ⟨some "https://www.justdial.com/x", some "Apollo Diagnostic Centre",
    some "12 MG Road Mumbai", some "4.5", emptyDetails⟩

/-- Witness environment: page 1 carries one card, page 2 is a block page. -/
def envA : String → Option PageData := fun url =>
  if url = jdUrl "Mumbai" "diagnostic center" 1 then
    some ⟨"listing page", fun sel => if sel = "div.resultbox" then [cardW] else []⟩
  else if url = jdUrl "Mumbai" "diagnostic center" 2 then
    some ⟨"please verify you are human", fun _ => []⟩
  else none

/-- Witness environment: every page responds but no selector matches. -/
def envB : String → Option PageData := fun _ =>
  some ⟨"no results here", fun _ => []⟩

/-- Witness for C7: a block page on page 2 aborts the call with the
sentinel, and an environment with no matching selectors yields []. -/
theorem claim_C7_witness :
    scrape_justdial envA "Mumbai" "diagnostic center" 2 = [jdBlockedSentinel]
    ∧ scrape_justdial envB "Mumbai" "lab" 3 = [] :=
  ⟨(claim_C7 envA "Mumbai" "diagnostic center" 2).1 2
      ⟨"please verify you are human", fun _ => []⟩ (by omega) (by omega)
      (fun q h1 h2 => by
        have hq : q = 1 := by omega
        subst hq
        decide)
      rfl (by decide) (by decide),
   (claim_C7 envB "Mumbai" "lab" 3).2.2 (fun q _ _ => rfl)⟩

/-- Character kept by the tokenizer's regex class [a-z0-9] (applied after
lowering). -/
def isNameTok (c : Char) : Bool :=
  ('a' ≤ c ∧ c ≤ 'z') ∨ ('0' ≤ c ∧ c ≤ '9')

/-- Grouping pass of the tokenizer: split a character list on maximal
runs of characters outside [a-z0-9], dropping empty pieces; `cur` holds
the current token's characters in reverse. -/
def tokenizeChars : List Char → List Char → List String
  | [], cur => if cur.isEmpty then [] else [String.mk cur.reverse]
  | c :: rest, cur =>
      if isNameTok c then tokenizeChars rest (c :: cur)
      else if cur.isEmpty then tokenizeChars rest []
      else String.mk cur.reverse :: tokenizeChars rest []

/-- Tokenizer of `justdial_scraper.py`: lower the text, split on runs of
non-alphanumerics, keep non-empty tokens; empty/absent text gives []. -/
def _tokenize_name (text : Val) : List String :=
  match text with
  | none => []
  | some s => if s = "" then [] else tokenizeChars (pyLower s).data []

/-- Match score of `justdial_scraper.py`: size of the intersection of the
two name token sets, plus the intersection size of the address token sets
when both addresses are truthy; zero when either name token set is empty. -/
def _match_score (candidate : Val) (target : String)
    (candidate_address target_address : Val) : Nat :=
  if (_tokenize_name candidate).toFinset = ∅
      ∨ (_tokenize_name (some target)).toFinset = ∅ then 0
  else
    ((_tokenize_name candidate).toFinset ∩ (_tokenize_name (some target)).toFinset).card
      + (if pyTruthy candidate_address ∧ pyTruthy target_address then
          ((_tokenize_name candidate_address).toFinset
            ∩ (_tokenize_name target_address).toFinset).card
        else 0)

theorem pyTruthy_some_false {s : String} (h : pyTruthy (some s) = false) :
    s = "" := by
  simpa [pyTruthy] using h

/-- C5: the match score equals the token-set-intersection size of the two
names, plus the token-set-intersection size of the two addresses exactly
when both addresses are present (an empty-string address contributes an
empty token set, so the sum form is exact); the score is 0 whenever
either name tokenizes to the empty set; and tokenization is case- and
punctuation-insensitive, witnessed by the spec's example pair. -/
theorem claim_C5 (candidate : Val) (target : String) (ca ta : Val) :
    ((_tokenize_name candidate).toFinset = ∅
        ∨ (_tokenize_name (some target)).toFinset = ∅ →
      _match_score candidate target ca ta = 0)
    ∧ ((_tokenize_name candidate).toFinset ≠ ∅ →
        (_tokenize_name (some target)).toFinset ≠ ∅ →
        (∀ a b, ca = some a → ta = some b →
          _match_score candidate target ca ta
            = ((_tokenize_name candidate).toFinset
                ∩ (_tokenize_name (some target)).toFinset).card
              + ((_tokenize_name (some a)).toFinset
                  ∩ (_tokenize_name (some b)).toFinset).card)
        ∧ ((ca = none ∨ ta = none) →
          _match_score candidate target ca ta
            = ((_tokenize_name candidate).toFinset
                ∩ (_tokenize_name (some target)).toFinset).card))
    ∧ _tokenize_name (some "ABC Diagnostic, Center!")
        = _tokenize_name (some "abc diagnostic center") := by
  refine ⟨?_, ?_, by decide⟩
  · intro h
    rw [_match_score, if_pos h]
  · intro hc ht
    have hno : ¬ ((_tokenize_name candidate).toFinset = ∅
        ∨ (_tokenize_name (some target)).toFinset = ∅) := by
      rintro (h | h)
      · exact hc h
      · exact ht h
    constructor
    · intro a b ha hb
      subst ha
      subst hb
      rw [_match_score, if_neg hno]
      by_cases hta : pyTruthy (some a) = true
      · by_cases htb : pyTruthy (some b) = true
        · rw [if_pos ⟨hta, htb⟩]
        · have hb0 : b = "" := pyTruthy_some_false (by simpa using htb)
          subst hb0
          rw [if_neg (by simp [pyTruthy])]
          have : (_tokenize_name (some "")).toFinset = (∅ : Finset String) := by
            decide
          rw [this, Finset.inter_empty, Finset.card_empty]
      · have ha0 : a = "" := pyTruthy_some_false (by simpa using hta)
        subst ha0
        rw [if_neg (by simp [pyTruthy])]
        have : (_tokenize_name (some "")).toFinset = (∅ : Finset String) := by
          decide
        rw [this, Finset.empty_inter, Finset.card_empty]
    · intro hnone
      rw [_match_score, if_neg hno]
      have : ¬ (pyTruthy ca = true ∧ pyTruthy ta = true) := by
        rcases hnone with h | h <;> subst h <;> simp [pyTruthy]
      rw [if_neg this, Nat.add_zero]

/-- Witness for C5 at concrete names and addresses. -/
theorem claim_C5_witness :
    _match_score (some "ABC Diagnostic, Center!") "abc diagnostic center"
        (some "MG Road") (some "MG Road Mumbai")
      = ((_tokenize_name (some "ABC Diagnostic, Center!")).toFinset
          ∩ (_tokenize_name (some "abc diagnostic center")).toFinset).card
        + ((_tokenize_name (some "MG Road")).toFinset
            ∩ (_tokenize_name (some "MG Road Mumbai")).toFinset).card :=
  ((claim_C5 (some "ABC Diagnostic, Center!") "abc diagnostic center"
      (some "MG Road") (some "MG Road Mumbai")).2.1 (by decide) (by decide)).1
    "MG Road" "MG Road Mumbai" rfl rfl

/-- Score of one directory result against the looked-up name/address
(lines 241-246 of `justdial_scraper.py`). -/
def jdNameScore (center_name : String) (address : Val) (r : Dict) : Nat :=
  _match_score (dictGet r "center_name") center_name (dictGet r "full_address") address

/-- Selection loop of `scrape_justdial_by_name`: best-so-far and its
score, the score starting at -1 and updated on strict improvement. -/
def pickLoop (f : Dict → Nat) : List Dict → Option Dict × Int → Option Dict × Int
  | [], acc => acc
  | r :: rest, (best, best_score) =>
      if best_score < (f r : Int) then pickLoop f rest (some r, (f r : Int))
      else pickLoop f rest (best, best_score)

/-- Best-match step of `scrape_justdial_by_name` on the directory results
list: empty list gives no match, a blocked head gives a fresh sentinel
dict, otherwise the scan result (falling back to the first result when
the scan yields nothing truthy). -/
def jdSelectBest (center_name : String) (address : Val)
    (results : List Dict) : Option Dict :=
  if results.isEmpty then none
  else if pyTruthy (dictGet (results.headD []) "_blocked") then
    some [("_blocked", dictGet (results.headD []) "_blocked")]
  else
    match (pickLoop (jdNameScore center_name address) results (none, -1)).1 with
    | some best => if best.isEmpty then some (results.headD []) else some best
    | none => some (results.headD [])

/-- Targeted lookup of `justdial_scraper.py`: single-page directory
search for the center name, then best-match selection. -/
def scrape_justdial_by_name (env : String → Option PageData)
    (city center_name : String) (address : Val) : Option Dict :=
  jdSelectBest center_name address (scrape_justdial env city center_name 1)

/-- Earliest maximal-score element of `b :: xs`, ties keeping the
earlier element. -/
def firstArgmax (f : Dict → Nat) : Dict → List Dict → Dict
  | b, [] => b
  | b, x :: xs => if f b < f x then firstArgmax f x xs else firstArgmax f b xs

theorem pickLoop_peak (f : Dict → Nat) :
    ∀ (xs : List Dict) (b : Dict),
      pickLoop f xs (some b, ((f b : Nat) : Int))
        = (some (firstArgmax f b xs), ((f (firstArgmax f b xs) : Nat) : Int)) := by
  intro xs
  induction xs with
  | nil => intro b; rfl
  | cons x xs ih =>
      intro b
      rw [pickLoop, firstArgmax]
      by_cases h : f b < f x
      · rw [if_pos (by exact_mod_cast h), if_pos h, ih x]
      · rw [if_neg (by exact_mod_cast h), if_neg h, ih b]

theorem pickLoop_start (f : Dict → Nat) (r : Dict) (rest : List Dict) :
    pickLoop f (r :: rest) (none, -1)
      = pickLoop f rest (some r, ((f r : Nat) : Int)) := by
  rw [pickLoop, if_pos (by omega)]

theorem firstArgmax_spec (f : Dict → Nat) :
    ∀ (xs : List Dict) (b : Dict),
      (∀ y ∈ b :: xs, f y ≤ f (firstArgmax f b xs))
      ∧ ∃ l₁ l₂, b :: xs = l₁ ++ (firstArgmax f b xs) :: l₂
          ∧ ∀ y ∈ l₁, f y < f (firstArgmax f b xs) := by
  intro xs
  induction xs with
  | nil =>
      intro b
      refine ⟨?_, [], [], rfl, by simp⟩
      intro y hy
      rw [List.mem_singleton] at hy
      subst hy
      exact le_rfl
  | cons x xs ih =>
      intro b
      rw [firstArgmax]
      by_cases h : f b < f x
      · obtain ⟨hmax, l₁, l₂, hsplit, hlt⟩ := ih x
        rw [if_pos h]
        have hxa : f x ≤ f (firstArgmax f x xs) := hmax x (by simp)
        refine ⟨?_, b :: l₁, l₂, ?_, ?_⟩
        · intro y hy
          rcases List.mem_cons.mp hy with hy | hy
          · subst hy; omega
          · exact hmax y hy
        · rw [List.cons_append, ← hsplit]
        · intro y hy
          rcases List.mem_cons.mp hy with hy | hy
          · subst hy; omega
          · exact hlt y hy
      · obtain ⟨hmax, l₁, l₂, hsplit, hlt⟩ := ih b
        rw [if_neg h]
        have hba : f b ≤ f (firstArgmax f b xs) := hmax b (by simp)
        have hmax' : ∀ y ∈ b :: x :: xs, f y ≤ f (firstArgmax f b xs) := by
          intro y hy
          rcases List.mem_cons.mp hy with hy | hy
          · subst hy; exact hba
          · rcases List.mem_cons.mp hy with hy | hy
            · subst hy; omega
            · exact hmax y (by simp [hy])
        cases l₁ with
        | nil =>
            rw [List.nil_append] at hsplit
            have hb : b = firstArgmax f b xs := (List.cons.injEq _ _ _ _).mp hsplit |>.1
            refine ⟨hmax', [], x :: xs, ?_, by simp⟩
            rw [List.nil_append, ← hb]
        | cons c l₁' =>
            rw [List.cons_append] at hsplit
            have hinj := (List.cons.injEq _ _ _ _).mp hsplit
            have hcb : b = c := hinj.1
            have hxs : xs = l₁' ++ firstArgmax f b xs :: l₂ := hinj.2
            have hcl : f b < f (firstArgmax f b xs) := by
              have hcl' := hlt c (by simp)
              rwa [← hcb] at hcl'
            refine ⟨hmax', b :: x :: l₁', l₂, ?_, ?_⟩
            · rw [List.cons_append, List.cons_append, ← hxs]
            · intro y hy
              rcases List.mem_cons.mp hy with hy | hy
              · subst hy; exact hcl
              · rcases List.mem_cons.mp hy with hy | hy
                · subst hy; omega
                · exact hlt y (List.mem_cons_of_mem _ hy)

theorem jdRecord_ne_nil (keyword url : String) (c : Card) :
    jdRecord keyword url c ≠ [] := by
  simp [jdRecord]

theorem jdLoop_mem_ne_nil (env : String → Option PageData) (city keyword : String) :
    ∀ (r page : Nat) (acc : List Dict), (∀ d ∈ acc, d ≠ []) →
      ∀ d ∈ jdLoop env city keyword page r acc, d ≠ [] := by
  intro r
  induction r with
  | zero => intro page acc hacc; exact hacc
  | succ r ih =>
      intro page acc hacc d hd
      rw [jdLoop] at hd
      cases henv : env (jdUrl city keyword page) with
      | none =>
          rw [henv] at hd
          exact ih (page + 1) acc hacc d hd
      | some pd =>
          rw [henv] at hd
          dsimp only at hd
          by_cases hh : pd.html = ""
          · rw [if_pos hh] at hd
            exact ih (page + 1) acc hacc d hd
          · rw [if_neg hh] at hd
            by_cases hb : looks_like_blocked (some pd.html) = true
            · rw [hb, if_pos rfl] at hd
              rw [List.mem_singleton] at hd
              subst hd
              simp [jdBlockedSentinel]
            · rw [Bool.not_eq_true] at hb
              rw [hb] at hd
              simp only [Bool.false_eq_true, if_false] at hd
              by_cases hc : (_extract_listing_cards pd.soup).isEmpty = true
              · rw [if_pos hc] at hd
                exact hacc d hd
              · rw [if_neg hc] at hd
                refine ih (page + 1) _ ?_ d hd
                intro d' hd'
                rcases List.mem_append.mp hd' with hd' | hd'
                · exact hacc d' hd'
                · obtain ⟨c, _, hc2⟩ := List.mem_map.mp hd'
                  rw [← hc2]
                  exact jdRecord_ne_nil _ _ _

theorem scrape_justdial_mem_ne_nil (env : String → Option PageData)
    (city keyword : String) (max_pages : Nat) :
    ∀ d ∈ scrape_justdial env city keyword max_pages, d ≠ [] :=
  jdLoop_mem_ne_nil env city keyword max_pages 1 [] (by simp)

theorem jdSelectBest_spec (center_name : String) (address : Val)
    (r : Dict) (rest : List Dict)
    (hnb : pyTruthy (dictGet r "_blocked") = false)
    (hall : ∀ d ∈ r :: rest, d ≠ []) :
    ∃ b l₁ l₂, jdSelectBest center_name address (r :: rest) = some b
      ∧ r :: rest = l₁ ++ b :: l₂
      ∧ (∀ y ∈ l₁, jdNameScore center_name address y
          < jdNameScore center_name address b)
      ∧ (∀ y ∈ r :: rest, jdNameScore center_name address y
          ≤ jdNameScore center_name address b) := by
  obtain ⟨hmax, l₁, l₂, hsplit, hlt⟩ :=
    firstArgmax_spec (jdNameScore center_name address) rest r
  have hpick : (pickLoop (jdNameScore center_name address) (r :: rest)
      (none, -1)).1 = some (firstArgmax (jdNameScore center_name address) r rest) := by
    rw [pickLoop_start, pickLoop_peak]
  have hmem : firstArgmax (jdNameScore center_name address) r rest ∈ r :: rest := by
    rw [hsplit]
    exact List.mem_append_right _ (List.mem_cons_self _ _)
  have hne := hall _ hmem
  refine ⟨firstArgmax (jdNameScore center_name address) r rest, l₁, l₂, ?_,
    hsplit, hlt, hmax⟩
  rw [jdSelectBest, if_neg (by simp), if_neg (by simp [hnb]), hpick]
  dsimp only
  rw [if_neg (by simpa using hne)]

/-- C4: on a non-empty, non-blocked single-page directory result list,
`scrape_justdial_by_name` returns a candidate of strictly greatest match
score (earliest on ties): the result list splits as `l₁ ++ b :: l₂` with
every earlier candidate scoring strictly less and every candidate scoring
at most `b`; when every score is zero the first candidate is returned;
and the lookup returns `none` only when the result list is empty. -/
theorem claim_C4 (env : String → Option PageData) (city center_name : String)
    (address : Val) :
    (scrape_justdial env city center_name 1 ≠ [] →
      pyTruthy (dictGet ((scrape_justdial env city center_name 1).headD [])
        "_blocked") = false →
      ∃ (b : Dict) (l₁ l₂ : List Dict),
        scrape_justdial_by_name env city center_name address = some b
        ∧ scrape_justdial env city center_name 1 = l₁ ++ b :: l₂
        ∧ (∀ y ∈ l₁, jdNameScore center_name address y
            < jdNameScore center_name address b)
        ∧ (∀ y ∈ scrape_justdial env city center_name 1,
            jdNameScore center_name address y ≤ jdNameScore center_name address b)
        ∧ ((∀ y ∈ scrape_justdial env city center_name 1,
              jdNameScore center_name address y = 0) →
            some b = (scrape_justdial env city center_name 1).head?))
    ∧ (scrape_justdial_by_name env city center_name address = none →
        scrape_justdial env city center_name 1 = []) := by
  cases hcase : scrape_justdial env city center_name 1 with
  | nil =>
      constructor
      · intro hne
        exact absurd rfl hne
      · intro _
        rfl
  | cons r rest =>
      constructor
      · intro _ hnb
        obtain ⟨b, l₁, l₂, hsel, hsplit, hlt, hmax⟩ :=
          jdSelectBest_spec center_name address r rest hnb
            (fun d hd => scrape_justdial_mem_ne_nil env city center_name 1 d
              (hcase ▸ hd))
        refine ⟨b, l₁, l₂, ?_, hsplit, hlt, hmax, ?_⟩
        · rw [scrape_justdial_by_name, hcase]
          exact hsel
        · intro hzero
          have hbmem : b ∈ r :: rest := by
            rw [hsplit]
            exact List.mem_append_right _ (List.mem_cons_self _ _)
          have hb0 : jdNameScore center_name address b = 0 := hzero b hbmem
          cases l₁ with
          | nil =>
              rw [List.nil_append] at hsplit
              have hrb : r = b := ((List.cons.injEq _ _ _ _).mp hsplit).1
              rw [List.head?_cons, hrb]
          | cons c l₁' =>
              have hcmem : c ∈ r :: rest := by
                rw [hsplit]
                exact List.mem_append_left _ (by simp)
              have hc0 : jdNameScore center_name address c = 0 := hzero c hcmem
              have := hlt c (by simp)
              omega
      · intro hnone
        rw [scrape_justdial_by_name, hcase] at hnone
        by_cases hb : pyTruthy (dictGet ((r :: rest).headD []) "_blocked") = true
        · rw [jdSelectBest, if_neg (by simp), if_pos hb] at hnone
          exact absurd hnone (by simp)
        · rw [Bool.not_eq_true] at hb
          rw [jdSelectBest, if_neg (by simp), if_neg (by rw [hb]; simp)] at hnone
          cases hp : (pickLoop (jdNameScore center_name address) (r :: rest)
              (none, -1)).1 with
          | none =>
              rw [hp] at hnone
              exact absurd hnone (by simp)
          | some best =>
              rw [hp] at hnone
              dsimp only at hnone
              by_cases he : best.isEmpty = true
              · rw [if_pos he] at hnone
                exact absurd hnone (by simp)
              · rw [if_neg he] at hnone
                exact absurd hnone (by simp)

/-- Cards for the C4 witness environment. -/
def cardW1 : Card :=
  ⟨none, some "Apollo Clinic", some "Baner Pune", none, emptyDetails⟩

/-- Second card for the C4 witness environment. -/
def cardW2 : Card :=
  ⟨none, some "Apollo Diagnostic Centre", some "12 MG Road", none, emptyDetails⟩

/-- Witness environment for C4: one page with two candidate cards. -/
def envC : String → Option PageData := fun url =>
  if url = jdUrl "Pune" "Apollo Diagnostic Centre" 1 then
    some ⟨"directory results",
      fun sel => if sel = "div.resultbox" then [cardW1, cardW2] else []⟩
  else none

/-- Witness for C4 on the two-candidate environment. -/
theorem claim_C4_witness :
    ∃ (b : Dict) (l₁ l₂ : List Dict),
      scrape_justdial_by_name envC "Pune" "Apollo Diagnostic Centre"
          (some "MG Road") = some b
      ∧ scrape_justdial envC "Pune" "Apollo Diagnostic Centre" 1 = l₁ ++ b :: l₂
      ∧ (∀ y ∈ l₁, jdNameScore "Apollo Diagnostic Centre" (some "MG Road") y
          < jdNameScore "Apollo Diagnostic Centre" (some "MG Road") b)
      ∧ (∀ y ∈ scrape_justdial envC "Pune" "Apollo Diagnostic Centre" 1,
          jdNameScore "Apollo Diagnostic Centre" (some "MG Road") y
            ≤ jdNameScore "Apollo Diagnostic Centre" (some "MG Road") b)
      ∧ ((∀ y ∈ scrape_justdial envC "Pune" "Apollo Diagnostic Centre" 1,
            jdNameScore "Apollo Diagnostic Centre" (some "MG Road") y = 0) →
          some b = (scrape_justdial envC "Pune" "Apollo Diagnostic Centre" 1).head?) :=
  (claim_C4 envC "Pune" "Apollo Diagnostic Centre" (some "MG Road")).1
    (by decide) (by decide)

/-- State of one browser session as resolved by the external driver:
rendered page source, current URL, the text of the nodes each of the five
field selectors matches, and whether the search navigation/waits succeed
(when they do not, the exception is caught and the data collected so far
is returned). -/
structure GmbSession where
  searchOk : Bool
  pageSource : String
  currentUrl : String
  ratingTexts : List String
  addressTexts : List String
  hoursTexts : List String
  imageSrcs : List Val
  reviewTexts : List String

/-- Initial enrichment dict of `scrape_gmb`: every field unset. -/
def gmbInit : Dict :=
  [("google_business_profile_link", none),
   ("google_maps_embed_link", none),
   ("reviews_ratings", none),
   ("working_hours", none),
   ("full_address", none),
   ("image_urls", none),
   ("photo_gallery", none),
   ("testimonials", none),
   ("_blocked", none)]

/-- Query-based embed URL of `utils.py`; the URL-encoding of the query is
the external `requests.utils.quote` collaborator, passed as `quote`. -/
def build_embed_link (quote : String → String) (query : String) : String :=
  "https://www.google.com/maps?q=" ++ quote query ++ "&output=embed"

/-- Whitespace-collapsing pass of `normalize_text`: replace each maximal
whitespace run with a single space (`prevWs` records whether the previous
character was part of a run). -/
def collapseWsAux : List Char → Bool → List Char
  | [], _ => []
  | c :: rest, prevWs =>
      if isPyWs c then
        (if prevWs then collapseWsAux rest true else ' ' :: collapseWsAux rest true)
      else c :: collapseWsAux rest false

/-- Text normalization of `utils.py`: collapse whitespace runs, strip,
and map empty results to `None`. -/
def normalize_text (text : Val) : Val :=
  match text with
  | none => none
  | some s =>
      if s = "" then none
      else
        let cleaned := pyStrip (String.mk (collapseWsAux s.data false))
        if cleaned = "" then none else some cleaned

/-- Driver construction of `gmb_scraper.py`: when the selenium import
failed (`webdriverImported = false`) no driver is returned; otherwise the
external Chrome constructor either yields a session or raises, and the
raise propagates (there is no try/except around construction). -/
def _init_driver (webdriverImported : Bool)
    (chrome : Except String GmbSession) : Except String (Option GmbSession) :=
  if webdriverImported then chrome.map some else .ok none

/-- Field-extraction body of `scrape_gmb` (lines 56-110): blocked-page
check, then best-effort population of each field from the session. -/
def scrape_gmb_session (quote : String → String) (s : GmbSession)
    (query : String) : Dict :=
  if s.searchOk = false then gmbInit
  else if looks_like_blocked (some s.pageSource) then
    dictSet gmbInit "_blocked" (some "gmb_blocked_or_captcha")
  else
    let d1 := dictSet gmbInit "google_business_profile_link" (some s.currentUrl)
    let embed := build_embed_link_from_place_url (some s.currentUrl)
    let d2 := dictSet d1 "google_maps_embed_link"
      (if pyTruthy embed then embed else some (build_embed_link quote query))
    let d3 := match s.ratingTexts with
      | [] => d2
      | t :: _ => dictSet d2 "reviews_ratings" (normalize_text (some t))
    let d4 := match s.addressTexts with
      | [] => d3
      | t :: _ => dictSet d3 "full_address" (normalize_text (some t))
    let d5 := match s.hoursTexts with
      | [] => d4
      | t :: _ => dictSet d4 "working_hours" (normalize_text (some t))
    let images := (s.imageSrcs.filterMap id).filter
      (fun i => i != "" && strContains i "googleusercontent")
    let d6 :=
      if s.imageSrcs.isEmpty then d5
      else if images.isEmpty then d5
      else dictSet (dictSet d5 "image_urls" (some (pyJoin ", " (images.take 10))))
        "photo_gallery" (some (pyJoin ", " (images.take 10)))
    let reviews := (s.reviewTexts.filterMap (fun t => normalize_text (some t))).take 3
    if reviews.isEmpty then d6
    else dictSet d6 "testimonials" (some (pyJoin " | " reviews))

/-- Profile lookup of `gmb_scraper.py`: construct the driver (an
exception from the constructor propagates), return the all-null dict when
no driver is available, otherwise run the session body. -/
def scrape_gmb (quote : String → String) (webdriverImported : Bool)
    (chrome : Except String GmbSession) (query : String) : Except String Dict :=
  match _init_driver webdriverImported chrome with
  | .error e => .error e
  | .ok none => .ok gmbInit
  | .ok (some s) => .ok (scrape_gmb_session quote s query)

theorem dictGet_all_none :
    ∀ d : Dict, (∀ kv ∈ d, kv.2 = none) → ∀ k, dictGet d k = none := by
  intro d
  induction d with
  | nil => intro _ k; rfl
  | cons kv rest ih =>
      intro h k
      rw [dictGet]
      by_cases hk : kv.1 = k
      · rw [if_pos hk]
        exact h kv (by simp)
      · rw [if_neg hk]
        exact ih (fun kv h2 => h kv (by simp [h2])) k

/-- Counterexample to C6 as stated: when the selenium library is present
but the Chrome driver constructor itself fails, the exception propagates
out of `scrape_gmb` (driver construction happens before the try block),
so the capability "cannot be constructed" yet no all-null record is
returned. -/
theorem claim_C6_counterexample :
    scrape_gmb (fun q => q) true (.error "WebDriverException")
        "Apollo Clinic Pune"
      = .error "WebDriverException" := rfl

/-- C6 (amended): whenever the browser-automation library is unavailable
(the selenium import failed, so `_init_driver` yields no driver),
`scrape_gmb` returns the all-null profile record — every field `None`
and the `_blocked` sentinel unset — for every query, as a total function
(no exception); but when the library is present and the driver
constructor itself raises, that exception propagates unchanged. -/
theorem claim_C6 (quote : String → String) (chrome : Except String GmbSession)
    (query : String) :
    scrape_gmb quote false chrome query = .ok gmbInit
    ∧ (∀ k, dictGet gmbInit k = none)
    ∧ pyTruthy (dictGet gmbInit "_blocked") = false
    ∧ (∀ e, chrome = .error e →
        scrape_gmb quote true chrome query = .error e) := by
  refine ⟨rfl, dictGet_all_none gmbInit (by decide), rfl, ?_⟩
  intro e he
  subst he
  rfl

/-- Witness for C6: the all-null record on a concrete query, and the
propagated constructor failure. -/
theorem claim_C6_witness :
    scrape_gmb (fun q => q) false (.ok ⟨true, "", "", [], [], [], [], []⟩)
        "Dr Lal PathLabs Delhi" = .ok gmbInit
    ∧ scrape_gmb (fun q => q) true (.error "chromedriver not found")
        "Dr Lal PathLabs Delhi" = .error "chromedriver not found" :=
  ⟨(claim_C6 (fun q => q) (.ok ⟨true, "", "", [], [], [], [], []⟩)
      "Dr Lal PathLabs Delhi").1,
   (claim_C6 (fun q => q) (.error "chromedriver not found")
      "Dr Lal PathLabs Delhi").2.2.2 "chromedriver not found" rfl⟩

/-- Output row of `main.py`: the fixed 15-column projection. -/
structure OutputRow where
  center_name : Val
  center_type : Val
  address : Val
  average_report_time : Val
  collection_charges : Val
  collection_radius : Val
  working_hours : Val
  image_urls : Val
  google_business_profile_link : Val
  google_maps_embed_link : Val
  local_landmark : Val
  reviews_ratings : Val
  testimonials : Val
  photo_gallery : Val
  staff_doctors : Val
deriving DecidableEq

/-- Projection `_map_record` of `main.py`. -/
def _map_record (record : Dict) : OutputRow :=
  ⟨dictGet record "center_name", dictGet record "center_type",
   dictGet record "full_address", dictGet record "average_report_time",
   dictGet record "collection_charges", dictGet record "collection_radius",
   dictGet record "working_hours", dictGet record "image_urls",
   dictGet record "google_business_profile_link",
   dictGet record "google_maps_embed_link", dictGet record "local_landmark",
   dictGet record "reviews_ratings", dictGet record "testimonials",
   dictGet record "photo_gallery", dictGet record "staff_doctors"⟩

/-- Failed-record row of targeted mode (Center Name, Address, Reason). -/
structure FailedRow where
  center_name : String
  address : String
  reason : Val
deriving DecidableEq

/-- Outcome of processing one targeted-mode entity: an output row or a
failure-list entry. -/
inductive CsvOutcome where
  | row (r : OutputRow)
  | failedRow (f : FailedRow)
deriving DecidableEq

/-- Fallback record of `run_scrape_from_csv` (lines 183-200) when the
directory lookup returns nothing. -/
def defaultCsvRow (name : String) : Dict :=
  [("center_name", some name), ("center_type", none), ("full_address", none),
   ("average_report_time", none), ("collection_charges", none),
   ("collection_radius", none), ("working_hours", none), ("image_urls", none),
   ("google_business_profile_link", none), ("google_maps_embed_link", none),
   ("local_landmark", none), ("reviews_ratings", none), ("testimonials", none),
   ("photo_gallery", none), ("staff_doctors", none), ("source_url", none)]

/-- Resolved listing for one targeted-mode entity: the lookup result when
it is a truthy (non-empty) dict, else the fallback record. -/
def csvResolvedRow (name : String) (lookup : Option Dict) : Dict :=
  match lookup with
  | some r => if r.isEmpty then defaultCsvRow name else r
  | none => defaultCsvRow name

/-- Enrichment query of targeted mode (lines 213-214): resolved address
(or the address hint when empty), prefixed by the rendered center name. -/
def csvGmbQuery (name addressHint : String) (lookup : Option Dict) : String :=
  let row := csvResolvedRow name lookup
  let base_address := match dictGet row "full_address" with
    | some s => if s = "" then addressHint else s
    | none => addressHint
  pyStrip (pyStr (dictGet row "center_name") ++ " " ++ base_address)

/-- Per-entity body of `run_scrape_from_csv` (lines 179-229): resolve the
listing, route a blocked lookup to the failure list, optionally enrich
(routing a blocked profile to the failure list), merge, clear the address
when the profile's address is empty, and project. -/
def processCsvEntity (useGmb : Bool) (gmbO : String → Dict)
    (name address addressHint : String) (lookup : Option Dict) : CsvOutcome :=
  let row := csvResolvedRow name lookup
  if pyTruthy (dictGet row "_blocked") then
    .failedRow ⟨name, address, dictGet row "_blocked"⟩
  else if useGmb then
    let gmb_data := gmbO (csvGmbQuery name addressHint lookup)
    if pyTruthy (dictGet gmb_data "_blocked") then
      .failedRow ⟨name, address, dictGet gmb_data "_blocked"⟩
    else
      let row2 := _merge_gmb row gmb_data
      let row3 := if pyTruthy (dictGet gmb_data "full_address") then row2
        else dictSet row2 "full_address" none
      .row (_map_record row3)
  else .row (_map_record row)

/-- One targeted-mode input entity: the raw name cell, the normalized
address cell, the combined address hint, and the directory-lookup result
the external scraper resolves for it. -/
structure ProcEntity where
  name : String
  address : String
  addressHint : String
  lookup : Option Dict

/-- Outcome of one processed entity. -/
def csvOutcomeOf (useGmb : Bool) (gmbO : String → Dict) (e : ProcEntity) :
    CsvOutcome :=
  processCsvEntity useGmb gmbO (pyStrip e.name) e.address e.addressHint e.lookup

/-- Entity loop of `run_scrape_from_csv`: skip empty and already-seen
names, process the rest, and route each outcome to the output rows or
the failure list. -/
def runCsvEntities (useGmb : Bool) (gmbO : String → Dict) :
    List ProcEntity → List String → List OutputRow × List FailedRow
  | [], _ => ([], [])
  | e :: rest, seen =>
      if pyStrip e.name = "" then runCsvEntities useGmb gmbO rest seen
      else if pyStrip e.name ∈ seen then runCsvEntities useGmb gmbO rest seen
      else
        let res := runCsvEntities useGmb gmbO rest (pyStrip e.name :: seen)
        match csvOutcomeOf useGmb gmbO e with
        | .row r => (r :: res.1, res.2)
        | .failedRow f => (res.1, f :: res.2)

/-- Entities the loop actually processes (non-empty, first occurrence of
each stripped name). -/
def processedCsvEntities : List ProcEntity → List String → List ProcEntity
  | [], _ => []
  | e :: rest, seen =>
      if pyStrip e.name = "" then processedCsvEntities rest seen
      else if pyStrip e.name ∈ seen then processedCsvEntities rest seen
      else e :: processedCsvEntities rest (pyStrip e.name :: seen)

/-- Address column of an outcome (`some` of the row's Address when the
outcome is an output row). -/
def csvOutcomeAddress : CsvOutcome → Option Val
  | .row r => some r.address
  | .failedRow _ => none

/-- Deduplication key of bulk mode (line 108): the (name, address) pair
of the scraped record. -/
def rowKey (row : Dict) : Val × Val :=
  (dictGet row "center_name", dictGet row "full_address")

/-- Enrichment query of bulk mode (line 114). -/
def runScrapeQuery (row : Dict) : String :=
  pyStrip (pyStr (dictGet row "center_name") ++ " "
    ++ pyStrOr (dictGet row "full_address"))

/-- Optional enrichment of one bulk-mode record (lines 113-116). -/
def enrichRow (useGmb : Bool) (gmbO : String → Dict) (row : Dict) : Dict :=
  if useGmb && pyTruthy (dictGet row "center_name") then
    _merge_gmb row (gmbO (runScrapeQuery row))
  else row

/-- Record loop of `run_scrape` for the records of one directory call:
skip records whose (name, address) pair was seen, enrich and project the
rest, threading the seen-set. -/
def runScrapeLoop (useGmb : Bool) (gmbO : String → Dict) :
    List Dict → List (Val × Val) → List OutputRow × List (Val × Val)
  | [], seen => ([], seen)
  | row :: rest, seen =>
      if rowKey row ∈ seen then runScrapeLoop useGmb gmbO rest seen
      else
        let res := runScrapeLoop useGmb gmbO rest (rowKey row :: seen)
        (_map_record (enrichRow useGmb gmbO row) :: res.1, res.2)

/-- Keyword loop of `run_scrape` for one city. -/
def runScrapeKeywords (useGmb : Bool) (gmbO : String → Dict)
    (jd : String → String → List Dict) (city : String) :
    List String → List (Val × Val) → List OutputRow × List (Val × Val)
  | [], seen => ([], seen)
  | kw :: more, seen =>
      let r1 := runScrapeLoop useGmb gmbO (jd city kw) seen
      let r2 := runScrapeKeywords useGmb gmbO jd city more r1.2
      (r1.1 ++ r2.1, r2.2)

/-- City loop of `run_scrape`. -/
def runScrapeCities (useGmb : Bool) (gmbO : String → Dict)
    (jd : String → String → List Dict) (keywords : List String) :
    List String → List (Val × Val) → List OutputRow × List (Val × Val)
  | [], seen => ([], seen)
  | city :: more, seen =>
      let r1 := runScrapeKeywords useGmb gmbO jd city keywords seen
      let r2 := runScrapeCities useGmb gmbO jd keywords more r1.2
      (r1.1 ++ r2.1, r2.2)

/-- Bulk mode of `main.py` (lines 94-120): cities × keywords, directory
scrape (the external call passed as `jd`), dedup by (name, address),
optional enrichment, projection.  Bulk mode has no failure list. -/
def run_scrape (keywords cities : List String)
    (jd : String → String → List Dict) (useGmb : Bool)
    (gmbO : String → Dict) : List OutputRow :=
  (runScrapeCities useGmb gmbO jd keywords cities []).1

/-- Scraped-record stream of one city over the keyword list, in
processing order. -/
def bulkKeywordStream (jd : String → String → List Dict) (city : String) :
    List String → List Dict
  | [] => []
  | kw :: more => jd city kw ++ bulkKeywordStream jd city more

/-- Scraped-record stream of a whole bulk run, in processing order. -/
def bulkStream (jd : String → String → List Dict) (keywords : List String) :
    List String → List Dict
  | [] => []
  | city :: more =>
      bulkKeywordStream jd city keywords ++ bulkStream jd keywords more

/-- First-seen deduplication of a record stream by (name, address). -/
def dedupByKey : List Dict → List (Val × Val) → List Dict
  | [], _ => []
  | row :: rest, seen =>
      if rowKey row ∈ seen then dedupByKey rest seen
      else row :: dedupByKey rest (rowKey row :: seen)

/-- Seen-set left after deduplicating a record stream. -/
def dedupSeenAfter : List Dict → List (Val × Val) → List (Val × Val)
  | [], seen => seen
  | row :: rest, seen =>
      if rowKey row ∈ seen then dedupSeenAfter rest seen
      else dedupSeenAfter rest (rowKey row :: seen)

theorem runScrapeLoop_eq (useGmb : Bool) (gmbO : String → Dict) :
    ∀ (rows : List Dict) (seen : List (Val × Val)),
      runScrapeLoop useGmb gmbO rows seen
        = ((dedupByKey rows seen).map
            (fun row => _map_record (enrichRow useGmb gmbO row)),
          dedupSeenAfter rows seen) := by
  intro rows
  induction rows with
  | nil => intro seen; rfl
  | cons row rest ih =>
      intro seen
      rw [runScrapeLoop, dedupByKey, dedupSeenAfter]
      by_cases h : rowKey row ∈ seen
      · rw [if_pos h, if_pos h, if_pos h, ih seen]
      · rw [if_neg h, if_neg h, if_neg h, ih (rowKey row :: seen)]
        rfl

theorem dedupByKey_append :
    ∀ (l₁ l₂ : List Dict) (seen : List (Val × Val)),
      dedupByKey (l₁ ++ l₂) seen
        = dedupByKey l₁ seen ++ dedupByKey l₂ (dedupSeenAfter l₁ seen) := by
  intro l₁
  induction l₁ with
  | nil => intro l₂ seen; rfl
  | cons row rest ih =>
      intro l₂ seen
      rw [List.cons_append, dedupByKey, dedupByKey, dedupSeenAfter]
      by_cases h : rowKey row ∈ seen
      · rw [if_pos h, if_pos h, if_pos h, ih]
      · rw [if_neg h, if_neg h, if_neg h, ih, List.cons_append]

theorem dedupSeenAfter_append :
    ∀ (l₁ l₂ : List Dict) (seen : List (Val × Val)),
      dedupSeenAfter (l₁ ++ l₂) seen
        = dedupSeenAfter l₂ (dedupSeenAfter l₁ seen) := by
  intro l₁
  induction l₁ with
  | nil => intro l₂ seen; rfl
  | cons row rest ih =>
      intro l₂ seen
      rw [List.cons_append, dedupSeenAfter, dedupSeenAfter]
      by_cases h : rowKey row ∈ seen
      · rw [if_pos h, if_pos h, ih]
      · rw [if_neg h, if_neg h, ih]

theorem runScrapeKeywords_eq (useGmb : Bool) (gmbO : String → Dict)
    (jd : String → String → List Dict) (city : String) :
    ∀ (kws : List String) (seen : List (Val × Val)),
      runScrapeKeywords useGmb gmbO jd city kws seen
        = ((dedupByKey (bulkKeywordStream jd city kws) seen).map
            (fun row => _map_record (enrichRow useGmb gmbO row)),
          dedupSeenAfter (bulkKeywordStream jd city kws) seen) := by
  intro kws
  induction kws with
  | nil => intro seen; rfl
  | cons kw more ih =>
      intro seen
      rw [runScrapeKeywords, runScrapeLoop_eq, ih, bulkKeywordStream,
        dedupByKey_append, dedupSeenAfter_append, List.map_append]

theorem runScrapeCities_eq (useGmb : Bool) (gmbO : String → Dict)
    (jd : String → String → List Dict) (keywords : List String) :
    ∀ (cities : List String) (seen : List (Val × Val)),
      runScrapeCities useGmb gmbO jd keywords cities seen
        = ((dedupByKey (bulkStream jd keywords cities) seen).map
            (fun row => _map_record (enrichRow useGmb gmbO row)),
          dedupSeenAfter (bulkStream jd keywords cities) seen) := by
  intro cities
  induction cities with
  | nil => intro seen; rfl
  | cons city more ih =>
      intro seen
      rw [runScrapeCities, runScrapeKeywords_eq, ih, bulkStream,
        dedupByKey_append, dedupSeenAfter_append, List.map_append]

theorem dedupByKey_keys_nodup :
    ∀ (l : List Dict) (seen : List (Val × Val)),
      ((dedupByKey l seen).map rowKey).Nodup
      ∧ ∀ k ∈ (dedupByKey l seen).map rowKey, k ∉ seen := by
  intro l
  induction l with
  | nil =>
      intro seen
      rw [dedupByKey]
      exact ⟨List.nodup_nil, by simp⟩
  | cons row rest ih =>
      intro seen
      rw [dedupByKey]
      by_cases h : rowKey row ∈ seen
      · rw [if_pos h]
        exact ih seen
      · rw [if_neg h]
        obtain ⟨ihn, ihs⟩ := ih (rowKey row :: seen)
        constructor
        · rw [List.map_cons, List.nodup_cons]
          refine ⟨?_, ihn⟩
          intro hmem
          exact (ihs _ hmem) (List.mem_cons_self _ _)
        · intro k hk
          rw [List.map_cons, List.mem_cons] at hk
          rcases hk with hk | hk
          · subst hk; exact h
          · intro hks
            exact (ihs k hk) (List.mem_cons_of_mem _ hks)

theorem dedupByKey_filter_firstocc :
    ∀ (l : List Dict) (seen : List (Val × Val)) (k : Val × Val),
      (k ∉ seen → (dedupByKey l seen).filter (fun x => rowKey x == k)
          = (l.find? (fun x => rowKey x == k)).toList)
      ∧ (k ∈ seen → (dedupByKey l seen).filter (fun x => rowKey x == k) = []) := by
  intro l
  induction l with
  | nil => intro seen k; exact ⟨fun _ => rfl, fun _ => rfl⟩
  | cons row rest ih =>
      intro seen k
      rw [dedupByKey]
      by_cases hrs : rowKey row ∈ seen
      · rw [if_pos hrs]
        constructor
        · intro hk
          have hbeq : (rowKey row == k) = false := by
            rw [beq_eq_false_iff_ne]
            intro he
            exact hk (he ▸ hrs)
          have h1 := (ih seen k).1 hk
          simp [List.find?_cons, hbeq, h1]
        · intro hk
          exact (ih seen k).2 hk
      · rw [if_neg hrs]
        constructor
        · intro hk
          by_cases heq : rowKey row = k
          · have hbeq : (rowKey row == k) = true := by
              rw [beq_iff_eq]; exact heq
            have h2 := (ih (rowKey row :: seen) k).2
              (heq ▸ List.mem_cons_self _ _)
            simp [List.filter_cons, List.find?_cons, hbeq, h2]
          · have hbeq : (rowKey row == k) = false := by
              rw [beq_eq_false_iff_ne]; exact heq
            have h1 := (ih (rowKey row :: seen) k).1
              (by
                rw [List.mem_cons, not_or]
                exact ⟨fun he => heq he.symm, hk⟩)
            simp [List.filter_cons, List.find?_cons, hbeq, h1]
        · intro hk
          have hbeq : (rowKey row == k) = false := by
            rw [beq_eq_false_iff_ne]
            intro he
            exact hrs (he ▸ hk)
          have h2 := (ih (rowKey row :: seen) k).2 (List.mem_cons_of_mem _ hk)
          simp [List.filter_cons, hbeq, h2]

/-- C8: bulk mode deduplicates by the (name, address) pair.  The output
is exactly the projection of the first-seen-deduplicated scraped-record
stream; the deduplicated records have pairwise-distinct keys; and for
every scraped record, exactly one deduplicated record carries its key —
the first record of the stream with that key. -/
theorem claim_C8 (keywords cities : List String)
    (jd : String → String → List Dict) (useGmb : Bool) (gmbO : String → Dict) :
    run_scrape keywords cities jd useGmb gmbO
      = (dedupByKey (bulkStream jd keywords cities) []).map
          (fun row => _map_record (enrichRow useGmb gmbO row))
    ∧ ((dedupByKey (bulkStream jd keywords cities) []).map rowKey).Nodup
    ∧ ∀ r ∈ bulkStream jd keywords cities, ∃ w,
        (bulkStream jd keywords cities).find? (fun x => rowKey x == rowKey r)
          = some w
        ∧ (dedupByKey (bulkStream jd keywords cities) []).filter
            (fun x => rowKey x == rowKey r) = [w] := by
  refine ⟨?_, (dedupByKey_keys_nodup (bulkStream jd keywords cities) []).1, ?_⟩
  · rw [run_scrape, runScrapeCities_eq]
  · intro r hr
    cases hf : (bulkStream jd keywords cities).find?
        (fun x => rowKey x == rowKey r) with
    | none =>
        rw [List.find?_eq_none] at hf
        exact absurd (by simp : (rowKey r == rowKey r) = true)
          (by simpa using hf r hr)
    | some w =>
        refine ⟨w, rfl, ?_⟩
        rw [(dedupByKey_filter_firstocc (bulkStream jd keywords cities) []
          (rowKey r)).1 (by simp), hf]
        rfl

/-- First duplicate record for the C8 witness. -/
def recA : Dict :=
  [("center_name", some "Thyrocare"), ("full_address", some "Andheri West")]

/-- Second record with the same (name, address) pair. -/
def recB : Dict :=
  [("center_name", some "Thyrocare"), ("full_address", some "Andheri West"),
   ("reviews_ratings", some "4.2")]

/-- Witness for C8: two records with the same pair, one surviving
deduplicated record — the first-seen one. -/
theorem claim_C8_witness :
    ∃ w,
      (bulkStream (fun _ _ => [recA, recB]) ["lab"] ["Mumbai"]).find?
          (fun x => rowKey x == rowKey recB) = some w
      ∧ (dedupByKey (bulkStream (fun _ _ => [recA, recB]) ["lab"] ["Mumbai"]) []).filter
          (fun x => rowKey x == rowKey recB) = [w] :=
  (claim_C8 ["lab"] ["Mumbai"] (fun _ _ => [recA, recB]) false
    (fun _ => gmbInit)).2.2 recB (by decide)

theorem merge_gmb_sets_truthy (gmb : Dict) :
    ∀ (data : Dict) (k : String), (dictKeys gmb).Nodup →
      pyStartsWith k "_" = false →
      pyTruthy (dictGet gmb k) = true →
      dictGet (_merge_gmb data gmb) k = dictGet gmb k := by
  induction gmb with
  | nil =>
      intro data k _ _ htr
      rw [dictGet] at htr
      simp [pyTruthy] at htr
  | cons kv rest ih =>
      intro data k hnd hund htr
      obtain ⟨k₀, v₀⟩ := kv
      rw [dictKeys, List.map_cons, List.nodup_cons] at hnd
      by_cases hk : k₀ = k
      · subst hk
        rw [dictGet, if_pos rfl] at htr
        rw [_merge_gmb, hund]
        simp only [Bool.false_eq_true, if_false]
        rw [if_pos htr]
        have hrest : pyTruthy (dictGet rest k₀) = false := by
          rw [dictGet_eq_none_of_not_mem_keys hnd.1]
          rfl
        rw [merge_gmb_preserves_nontruthy rest (dictSet data k₀ v₀) k₀ hnd.2 hrest,
          dictGet_dictSet_self, dictGet, if_pos rfl]
      · rw [dictGet, if_neg hk] at htr
        rw [_merge_gmb, dictGet, if_neg hk]
        exact ih _ k hnd.2 hund htr

/-- Counterexample to C2 as stated: a resolved listing with populated
`full_address`, an unblocked profile with empty `full_address`, yet the
output row's Address is `None`, not the listing's original address —
lines 226-227 of `main.py` clear the address after the merge pass. -/
theorem claim_C2_counterexample :
    dictGet (dictSet (defaultCsvRow "Apollo Clinic") "full_address"
        (some "12 MG Road")) "full_address" = some "12 MG Road"
    ∧ pyTruthy (dictGet gmbInit "full_address") = false
    ∧ pyTruthy (dictGet (dictSet (defaultCsvRow "Apollo Clinic") "full_address"
        (some "12 MG Road")) "_blocked") = false
    ∧ pyTruthy (dictGet gmbInit "_blocked") = false
    ∧ csvOutcomeAddress (processCsvEntity true (fun _ => gmbInit)
        "Apollo Clinic" "12 MG Road" ""
        (some (dictSet (defaultCsvRow "Apollo Clinic") "full_address"
          (some "12 MG Road")))) = some none
    ∧ some (none : Val) ≠ some (some "12 MG Road") := by
  decide

/-- C2 (amended): in targeted mode with enrichment on and neither side
blocked, the merge pass is followed by one more mutation — the listing's
`full_address` is reset to `None` whenever the profile's `full_address`
is empty — so the output row's Address always equals the profile's
`full_address` when that is non-empty and is `None` otherwise; the
listing's original address never reaches the output. -/
theorem claim_C2 (gmbO : String → Dict) (name address addressHint : String)
    (lookup : Option Dict) :
    (dictKeys (gmbO (csvGmbQuery name addressHint lookup))).Nodup →
    pyTruthy (dictGet (csvResolvedRow name lookup) "_blocked") = false →
    pyTruthy (dictGet (gmbO (csvGmbQuery name addressHint lookup)) "_blocked")
      = false →
    csvOutcomeAddress (processCsvEntity true gmbO name address addressHint lookup)
      = some (if pyTruthy (dictGet (gmbO (csvGmbQuery name addressHint lookup))
            "full_address") = true
          then dictGet (gmbO (csvGmbQuery name addressHint lookup)) "full_address"
          else none) := by
  intro hnd hrow hgmb
  rw [processCsvEntity]
  dsimp only
  rw [if_neg (by simp [hrow]), if_pos rfl, if_neg (by simp [hgmb])]
  by_cases ht : pyTruthy (dictGet (gmbO (csvGmbQuery name addressHint lookup))
      "full_address") = true
  · rw [if_pos ht, if_pos ht, csvOutcomeAddress, _map_record]
    rw [merge_gmb_sets_truthy (gmbO (csvGmbQuery name addressHint lookup))
      (csvResolvedRow name lookup) "full_address" hnd (by decide) ht]
  · rw [if_neg ht, if_neg ht, csvOutcomeAddress, _map_record]
    rw [dictGet_dictSet_self]

/-- Witness for C2 at the counterexample's concrete inputs. -/
theorem claim_C2_witness :
    csvOutcomeAddress (processCsvEntity true (fun _ => gmbInit)
        "Apollo Clinic" "12 MG Road" ""
        (some (dictSet (defaultCsvRow "Apollo Clinic") "full_address"
          (some "12 MG Road"))))
      = some (if pyTruthy (dictGet ((fun _ : String => gmbInit)
            (csvGmbQuery "Apollo Clinic" ""
              (some (dictSet (defaultCsvRow "Apollo Clinic") "full_address"
                (some "12 MG Road"))))) "full_address") = true
          then dictGet ((fun _ : String => gmbInit)
            (csvGmbQuery "Apollo Clinic" ""
              (some (dictSet (defaultCsvRow "Apollo Clinic") "full_address"
                (some "12 MG Road"))))) "full_address"
          else none) :=
  claim_C2 (fun _ => gmbInit) "Apollo Clinic" "12 MG Road" ""
    (some (dictSet (defaultCsvRow "Apollo Clinic") "full_address"
      (some "12 MG Road")))
    (by decide) (by decide) (by decide)

theorem runCsvEntities_eq (useGmb : Bool) (gmbO : String → Dict) :
    ∀ (es : List ProcEntity) (seen : List String),
      runCsvEntities useGmb gmbO es seen
        = ((processedCsvEntities es seen).filterMap
            (fun e => match csvOutcomeOf useGmb gmbO e with
              | .row r => some r
              | .failedRow _ => none),
          (processedCsvEntities es seen).filterMap
            (fun e => match csvOutcomeOf useGmb gmbO e with
              | .failedRow f => some f
              | .row _ => none)) := by
  intro es
  induction es with
  | nil => intro seen; rfl
  | cons e rest ih =>
      intro seen
      rw [runCsvEntities, processedCsvEntities]
      by_cases h1 : pyStrip e.name = ""
      · rw [if_pos h1, if_pos h1, ih]
      · rw [if_neg h1, if_neg h1]
        by_cases h2 : pyStrip e.name ∈ seen
        · rw [if_pos h2, if_pos h2, ih]
        · rw [if_neg h2, if_neg h2, ih (pyStrip e.name :: seen)]
          rw [List.filterMap_cons, List.filterMap_cons]
          dsimp only
          cases ho : csvOutcomeOf useGmb gmbO e with
          | row r => rfl
          | failedRow f => rfl

/-- C3 (amended): in targeted mode a blocked directory-side lookup or a
blocked profile-side lookup routes the entity to the failure list (first
two conjuncts), and the loop's output rows and failure rows are exactly
the partition of the processed entities' outcomes (third conjunct), so a
blocked entity never contributes an output row.  (Bulk mode, by
contrast, performs no blocked check at all — see the counterexample.) -/
theorem claim_C3 :
    (∀ (useGmb : Bool) (gmbO : String → Dict)
        (name address addressHint : String) (r : Dict),
      r ≠ [] → pyTruthy (dictGet r "_blocked") = true →
      processCsvEntity useGmb gmbO name address addressHint (some r)
        = .failedRow ⟨name, address, dictGet r "_blocked"⟩)
    ∧ (∀ (gmbO : String → Dict) (name address addressHint : String)
        (lookup : Option Dict),
      pyTruthy (dictGet (csvResolvedRow name lookup) "_blocked") = false →
      pyTruthy (dictGet (gmbO (csvGmbQuery name addressHint lookup))
        "_blocked") = true →
      processCsvEntity true gmbO name address addressHint lookup
        = .failedRow ⟨name, address,
            dictGet (gmbO (csvGmbQuery name addressHint lookup)) "_blocked"⟩)
    ∧ (∀ (useGmb : Bool) (gmbO : String → Dict) (es : List ProcEntity)
        (seen : List String),
      runCsvEntities useGmb gmbO es seen
        = ((processedCsvEntities es seen).filterMap
            (fun e => match csvOutcomeOf useGmb gmbO e with
              | .row r => some r
              | .failedRow _ => none),
          (processedCsvEntities es seen).filterMap
            (fun e => match csvOutcomeOf useGmb gmbO e with
              | .failedRow f => some f
              | .row _ => none))) := by
  refine ⟨?_, ?_, ?_⟩
  · intro useGmb gmbO name address addressHint r hr hblk
    have hrow : csvResolvedRow name (some r) = r := by
      rw [csvResolvedRow]
      rw [if_neg (by simpa using hr)]
    rw [processCsvEntity]
    dsimp only
    rw [hrow, if_pos hblk]
  · intro gmbO name address addressHint lookup hrow hgmb
    rw [processCsvEntity]
    dsimp only
    rw [if_neg (by simp [hrow]), if_pos rfl, if_pos hgmb]
  · exact runCsvEntities_eq

/-- Counterexample to C3 as stated: in bulk mode there is no blocked
check — a blocked directory call's sentinel flows through deduplication
into the main output as an all-empty row (and `run_scrape` has no failure
set at all). -/
theorem claim_C3_counterexample :
    scrape_justdial (fun _ => some ⟨"unusual traffic from your computer network",
        fun _ => []⟩) "Mumbai" "lab" 2 = [jdBlockedSentinel]
    ∧ run_scrape ["lab"] ["Mumbai"]
        (fun city kw => scrape_justdial
          (fun _ => some ⟨"unusual traffic from your computer network",
            fun _ => []⟩) city kw 2)
        false (fun _ => gmbInit)
      = [_map_record jdBlockedSentinel]
    ∧ _map_record jdBlockedSentinel
      = ⟨none, none, none, none, none, none, none, none, none, none, none,
          none, none, none, none⟩ := by
  decide

/-- Witness for C3: a blocked directory lookup routed to the failure
outcome in targeted mode. -/
theorem claim_C3_witness :
    processCsvEntity true (fun _ => gmbInit) "Apollo" "addr x" ""
        (some jdBlockedSentinel)
      = .failedRow ⟨"Apollo", "addr x", dictGet jdBlockedSentinel "_blocked"⟩ :=
  claim_C3.1 true (fun _ => gmbInit) "Apollo" "addr x" "" jdBlockedSentinel
    (by decide) (by decide)

end WebScrap
